import Mathlib

/-!
# Verification of the EDA loan-data transformation pipeline

A shallow embedding of the pandas data-manipulation code in
`dataframetransformation.py` and `inspectdata.py`, together with theorems
settling the specification claims about it.

Modelling conventions:
* A pandas cell is `Option ℚ` (numeric) or `Option String` (non-numeric);
  `none` models a null (`NaN`/`None`).
* A `DataFrame` is a row count together with an ordered list of named
  columns; well-formedness (`Table.WF`) says each column has `nrows` cells.
* Float arithmetic is modelled exactly over `ℚ`.  The places where the
  source can produce a non-finite float (`NaN`, `inf`) are modelled with
  `Option ℚ` (`none` = non-finite); a float comparison `x < y` or `x > y`
  with a non-finite operand evaluates to `False` in the source, and the
  model encodes that explicitly at each site.
-/

/- `Rat.add` and friends are `@[irreducible]` in Batteries, which blocks
`decide` from evaluating concrete rational arithmetic; re-marking them
semireducible only affects unfolding during elaboration, not kernel
checking. -/
set_option allowUnsafeReducibility true
attribute [local semireducible] Rat.add Rat.mul Rat.inv Rat.sub Rat.neg

namespace LoansEDA

/-- Column payload: a numeric (`float64`/`int64`) column of cells, or a
non-numeric (object/categorical) column of cells.  `none` is a null. -/
inductive ColData where
  | numeric : List (Option ℚ) → ColData
  | cat : List (Option String) → ColData
deriving DecidableEq

/-- A named dataframe column. -/
structure Col where
  name : String
  data : ColData
deriving DecidableEq

/-- A dataframe: its row count and its ordered columns. -/
structure Table where
  nrows : Nat
  cols : List Col
deriving DecidableEq

/-- Number of cells in a column. -/
def ColData.length : ColData → Nat
  | .numeric v => v.length
  | .cat v => v.length

/-- Well-formed dataframe: every column has exactly `nrows` cells. -/
def Table.WF (t : Table) : Prop :=
  ∀ c ∈ t.cols, c.data.length = t.nrows

/-- `df[col]`: first column with the given name, as pandas label lookup. -/
def findCol (cols : List Col) (name : String) : Option Col :=
  cols.find? (fun c => c.name == name)

/-- Whether the column dtype is in `['float64', 'int64']`. -/
def ColData.isNumeric : ColData → Bool
  | .numeric _ => true
  | .cat _ => false

/-- `isnull().sum()` for one column: the number of null cells. -/
def ColData.nullCount : ColData → Nat
  | .numeric v => v.countP (fun x => x.isNone)
  | .cat v => v.countP (fun x => x.isNone)

/-- Division as pandas performs it on a count and a row total:
`a / 0` is non-finite (`NaN` when `a = 0`, `±inf` otherwise), modelled as
`none`; otherwise the exact quotient. -/
def pandasDiv (a : ℚ) (b : ℚ) : Option ℚ :=
  if b = 0 then none else some (a / b)

/-- `(isnull().sum() / len(df)) * 100` for one column: the null
percentage, `none` when the row count is zero (pandas yields `NaN`). -/
def nullPct (c : Col) (nrows : Nat) : Option ℚ :=
  (pandasDiv (c.data.nullCount : ℚ) (nrows : ℚ)).map (fun q => q * 100)

/-- The float comparison `null_percentage > threshold`: `False` whenever
the percentage is non-finite (`NaN > t` is `False`). -/
def nullPctExceeds (c : Col) (nrows : Nat) (threshold : ℚ) : Bool :=
  match nullPct c nrows with
  | none => false
  | some p => decide (p > threshold)

/-- `DataFrameTransform.drop_nulls_over_threshold`: drops every column
whose null percentage strictly exceeds `threshold` (default 50). -/
def drop_nulls_over_threshold (t : Table) (threshold : ℚ) : Table :=
  { t with cols := t.cols.filter (fun c => ! nullPctExceeds c t.nrows threshold) }

/-- `DataFrameInfo.count_nulls`: per column, the null count and the null
percentage relative to the row count (`none` = `NaN` for a zero-row table). -/
def count_nulls (t : Table) : List (String × Nat × Option ℚ) :=
  t.cols.map (fun c => (c.name, c.data.nullCount, nullPct c t.nrows))

/-! ## Imputation (`impute_missing_values`) -/

/-- The non-null cells of a column of options. -/
def nonNulls (v : List (Option α)) : List α := v.filterMap id

/-- `isnull().any()` for a list of cells. -/
def hasNull (v : List (Option α)) : Bool := v.any (fun x => x.isNone)

/-- Insert a rational into a sorted list (ascending). -/
def insertSorted (x : ℚ) : List ℚ → List ℚ
  | [] => [x]
  | y :: ys => if x ≤ y then x :: y :: ys else y :: insertSorted x ys

/-- Ascending sort of a list of rationals. -/
def sortQ (l : List ℚ) : List ℚ := l.foldr insertSorted []

/-- `Series.mean()`: the mean of the non-null cells; `none` (`NaN`) when
every cell is null. -/
def seriesMean (v : List (Option ℚ)) : Option ℚ :=
  let nn := nonNulls v
  if nn.length = 0 then none else some (nn.sum / (nn.length : ℚ))

/-- `Series.median()`: the median of the non-null cells (midpoint of the
two central order statistics when their number is even); `none` (`NaN`)
when every cell is null. -/
def seriesMedian (v : List (Option ℚ)) : Option ℚ :=
  let s := sortQ (nonNulls v)
  let n := s.length
  if n = 0 then none
  else if n % 2 = 1 then some (s.getD (n / 2) 0)
  else some ((s.getD (n / 2 - 1) 0 + s.getD (n / 2) 0) / 2)

/-- The test `abs(mean - median) / mean < 0.1` of the source, under float
semantics: when `mean = 0` the quotient is `inf` or `NaN` and the
comparison is `False` (over `ℚ`, where `x / 0 = 0`, the zero case must be
excluded explicitly to keep the float behaviour). -/
def shouldUseMean (m md : ℚ) : Bool :=
  m ≠ 0 && |m - md| / m < 1 / 10

/-- `Series.fillna(v)`: replace null cells by `v`; filling with `NaN`
(`v = none`) leaves the nulls in place, as in pandas. -/
def fillna (c : List (Option α)) (v : Option α) : List (Option α) :=
  c.map (fun x => match x with | some a => some a | none => v)

/-- `Series.mode()[0]`: the most frequent non-null value, smallest first
on ties (pandas returns the modes sorted); `none` when there is no
non-null cell — in that case the source raises a `KeyError` on `[0]`. -/
def seriesMode (v : List (Option String)) : Option String :=
  let nn := nonNulls v
  nn.foldl
    (fun best x =>
      match best with
      | none => some x
      | some b =>
        if nn.count x > nn.count b then some x
        else if nn.count x = nn.count b && x < b then some x
        else some b)
    none

/-- The fill value the source chooses for a numeric column: mean when the
relative difference of mean and median is below 10% (with the float
zero-mean degeneracy), median otherwise; `NaN` when the column is all
null (both statistics are `NaN`). -/
def numericFillValue (v : List (Option ℚ)) : Option ℚ :=
  match seriesMean v, seriesMedian v with
  | some m, some md => some (if shouldUseMean m md then m else md)
  | _, _ => none

/-- `impute_missing_values`, restricted to one column.  Numeric columns
with a null are filled with mean or median; non-numeric columns with a
null are filled with the mode, and an all-null non-numeric column is the
`KeyError` case (`none`). -/
def imputeCol (c : Col) : Option Col :=
  match c.data with
  | .numeric v =>
    if hasNull v then some ⟨c.name, .numeric (fillna v (numericFillValue v))⟩
    else some c
  | .cat v =>
    if hasNull v then
      match seriesMode v with
      | some m => some ⟨c.name, .cat (fillna v (some m))⟩
      | none => none
    else some c

/-- Traverse a list with a fallible function, failing as soon as one
element fails. -/
def mapOpt (f : α → Option β) : List α → Option (List β)
  | [] => some []
  | a :: l =>
    match f a, mapOpt f l with
    | some b, some bs => some (b :: bs)
    | _, _ => none

/-- `DataFrameTransform.impute_missing_values` over the whole dataframe;
`none` models the `KeyError` raised on `mode()[0]` of an all-null
non-numeric column. -/
def impute_missing_values (t : Table) : Option Table :=
  (mapOpt imputeCol t.cols).map (fun cs => { t with cols := cs })

/-! ## Column transforms (`transform_column`, `find_best_transformation`)

In the source, the statement `return self.df[col]` in `transform_column`
sits at the indentation level of the dtype `if`, not inside it, so it
executes unconditionally; the `method` dispatch (`log`, `sqrt`, `boxcox`)
and the `raise ValueError` below it are unreachable.  The embedding
records the reachable behaviour: the failure message is printed exactly
when the dtype is non-numeric, and the column is returned unchanged. -/

/-- Outcome of `transform_column`: whether the non-numeric failure
message was printed, and the returned column data. -/
structure TCOut where
  loggedFailure : Bool
  result : ColData
deriving DecidableEq

/-- `DataFrameTransform.transform_column`.  `none` models the `KeyError`
of looking up a column absent from the dataframe; otherwise the column
comes back unchanged for every `method` string, numeric dtype or not,
because of the unconditional early return. -/
def transform_column (t : Table) (col : String) (method : String) : Option TCOut :=
  match findCol t.cols col with
  | none => none
  | some c =>
    let _ := method
    some ⟨! c.data.isNumeric, c.data⟩

/-- The float comparison `abs(skewness) < abs(best_skew)` of
`find_best_transformation`.  `s = none` is a `NaN` skewness (comparison
`False`); `best = none` is the initial `best_skew = np.inf` (a finite
skewness compares below it). -/
def absSkewLt (s : Option ℚ) (best : Option ℚ) : Bool :=
  match s with
  | none => false
  | some sv =>
    match best with
    | none => true
    | some b => decide (|sv| < |b|)

/-- `DataFrameTransform.find_best_transformation`, parametrised by the
pandas skewness statistic `skewfn` (`none` = `NaN`, e.g. for a constant
column).  Iterates over `['log', 'sqrt', 'boxcox']`, calling
`transform_column` and keeping the method of least absolute skewness;
returns the chosen method name and the accompanying column data.
`none` models the `KeyError` on a missing column. -/
def find_best_transformation (skewfn : ColData → Option ℚ) (t : Table)
    (col : String) : Option (Option String × ColData) :=
  match findCol t.cols col with
  | none => none
  | some c =>
    let r := ["log", "sqrt", "boxcox"].foldl
      (fun (acc : Option String × Option ℚ × ColData) method =>
        match transform_column t col method with
        | some out =>
          let s := skewfn out.result
          if absSkewLt s acc.2.1 then (some method, s, out.result) else acc
        | none => acc)
      (none, none, c.data)
    some (r.1, r.2.2)

/-! ## Outlier removal (`remove_outliers`) -/

/-- `Series.quantile(q)` with pandas linear interpolation on the sorted
non-null values: position `q * (n - 1)`, linear between the two
neighbouring order statistics; `none` (`NaN`) for an empty column. -/
def quantile (v : List (Option ℚ)) (q : ℚ) : Option ℚ :=
  let s := sortQ (nonNulls v)
  let n := s.length
  if n = 0 then none
  else
    let pos := q * ((n : ℚ) - 1)
    let i := pos.floor.toNat
    let frac := pos - (i : ℚ)
    some (s.getD i 0 + frac * (s.getD (i + 1) (s.getD i 0) - s.getD i 0))

/-- `Q1 - 1.5 * IQR` of a column, `none` when the quantiles are `NaN`. -/
def lowerBound (v : List (Option ℚ)) : Option ℚ :=
  match quantile v (1/4), quantile v (3/4) with
  | some q1, some q3 => some (q1 - 3/2 * (q3 - q1))
  | _, _ => none

/-- `Q3 + 1.5 * IQR` of a column, `none` when the quantiles are `NaN`. -/
def upperBound (v : List (Option ℚ)) : Option ℚ :=
  match quantile v (1/4), quantile v (3/4) with
  | some q1, some q3 => some (q3 + 3/2 * (q3 - q1))
  | _, _ => none

/-- The row mask `(df[column] >= lower) & (df[column] <= upper)`: a null
cell or a `NaN` bound compares `False` and the row is dropped. -/
def inBounds (lb ub : Option ℚ) (x : Option ℚ) : Bool :=
  match lb, ub, x with
  | some l, some u, some v => decide (l ≤ v) && decide (v ≤ u)
  | _, _, _ => false

/-- Keep the entries of `xs` at the positions where `mask` is `true`. -/
def maskFilter (xs : List α) (mask : List Bool) : List α :=
  ((xs.zip mask).filterMap (fun p => if p.2 then some p.1 else none))

/-- Apply a boolean row mask to a column. -/
def ColData.applyMask : ColData → List Bool → ColData
  | .numeric v, mask => .numeric (maskFilter v mask)
  | .cat v, mask => .cat (maskFilter v mask)

/-- `DataFrameTransform.remove_outliers`: when `column` is numeric, keep
only the rows whose value lies within `[Q1 - 1.5*IQR, Q3 + 1.5*IQR]`
computed from the column; a non-numeric column fails the dtype guard and
the dataframe is returned unchanged.  (A name absent from the dataframe
would raise a `KeyError` in the source; the claims only exercise present
columns.) -/
def remove_outliers (t : Table) (column : String) : Table :=
  match findCol t.cols column with
  | some ⟨_, .numeric v⟩ =>
    let lb := lowerBound v
    let ub := upperBound v
    let mask := v.map (fun x => inBounds lb ub x)
    { nrows := mask.count true, cols := t.cols.map (fun c => ⟨c.name, c.data.applyMask mask⟩) }
  | _ => t

/-! ## Correlation (`identify_highly_correlated`,
`remove_highly_correlated_columns`)

Pearson correlation of two columns uses the rows where both cells are
non-null.  `abs(corr) > threshold` on floats is, for `threshold ≥ 0` and
exact arithmetic, equivalent to `cov² > threshold² · var_x · var_y` on
the centred sums over those rows; when a variance vanishes the float
correlation is `NaN` and the comparison is `False`, which the inequality
`0 > threshold² · 0` also yields.  This square form avoids the square
root and is the predicate the embedding uses. -/

/-- The rows where both columns are non-null. -/
def pairRows (xs ys : List (Option ℚ)) : List (ℚ × ℚ) :=
  (xs.zip ys).filterMap (fun p =>
    match p.1, p.2 with
    | some a, some b => some (a, b)
    | _, _ => none)

/-- Centred product sum `Σ (aᵢ - mean a)(bᵢ - mean b)` of paired rows. -/
def centredSum (ps : List (ℚ × ℚ)) (f g : ℚ × ℚ → ℚ) : ℚ :=
  let n := ps.length
  if n = 0 then 0
  else
    let mf := (ps.map f).sum / (n : ℚ)
    let mg := (ps.map g).sum / (n : ℚ)
    (ps.map (fun p => (f p - mf) * (g p - mg))).sum

/-- The matrix test `correlation_matrix.iloc[i, j] > threshold` on the
absolute Pearson correlation of two columns, in exact square form. -/
def corrExceeds (xs ys : List (Option ℚ)) (threshold : ℚ) : Bool :=
  let ps := pairRows xs ys
  let sxy := centredSum ps Prod.fst Prod.snd
  let sxx := centredSum ps Prod.fst Prod.fst
  let syy := centredSum ps Prod.snd Prod.snd
  decide (sxy ^ 2 > threshold ^ 2 * (sxx * syy))

/-- `select_dtypes(include=['float64', 'int64'])`: the numeric columns in
dataframe order, as name/values pairs. -/
def numericCols (t : Table) : List (String × List (Option ℚ)) :=
  t.cols.filterMap (fun c =>
    match c.data with
    | .numeric v => some (c.name, v)
    | .cat _ => none)

/-- The upper-triangle double loop of `identify_highly_correlated`: for
each column, pair it with every later column whose absolute correlation
with it exceeds the threshold, then recurse on the later columns. -/
def corrPairs (threshold : ℚ) : List (String × List (Option ℚ)) → List (String × String)
  | [] => []
  | c :: rest =>
    (rest.filterMap (fun d =>
      if corrExceeds c.2 d.2 threshold then some (c.1, d.1) else none))
      ++ corrPairs threshold rest

/-- `DataFrameTransform.identify_highly_correlated`: the list of pairs
`(columns[i], columns[j])`, `i < j`, of numeric columns whose absolute
correlation exceeds `threshold`. -/
def identify_highly_correlated (t : Table) (threshold : ℚ) : List (String × String) :=
  corrPairs threshold (numericCols t)

/-- `DataFrameTransform.remove_highly_correlated_columns`: collect the
second name of every reported pair into a set, drop those columns, and
return the reduced dataframe with the set. -/
def remove_highly_correlated_columns (t : Table) (threshold : ℚ) :
    Table × Finset String :=
  let columnsToRemove := ((identify_highly_correlated t threshold).map Prod.snd).toFinset
  ({ t with cols := t.cols.filter (fun c => c.name ∉ columnsToRemove) }, columnsToRemove)

/-! ## Concrete dataframes used in scenario checks and counterexamples -/

/-- Ten-row frame: column `A` is 60% null, column `B` exactly 50% null. -/
def exThreshold : Table :=
  ⟨10, [⟨"A", .numeric [none, none, none, none, none, none,
                        some 1, some 2, some 3, some 4]⟩,
        ⟨"B", .numeric [none, none, none, none, none,
                        some 1, some 2, some 3, some 4, some 5]⟩]⟩

/-- Zero-row frame with one (empty) numeric column. -/
def exEmpty : Table := ⟨0, [⟨"a", .numeric []⟩]⟩

/-- The spec's outlier scenario: `amt = [1, 2, 3, 4, 100]`. -/
def exAmt : Table := ⟨5, [⟨"amt", .numeric [some 1, some 2, some 3, some 4, some 100]⟩]⟩

/-- A frame on which interquartile-range filtering is not idempotent:
the first pass has bounds `[-9/8, 15/8]` and drops the `5`, the second
pass recomputes the quartiles on `[0, 0, 0, 0, 1]`, gets bounds `[0, 0]`
and also drops the `1`. -/
def exShrink : Table :=
  ⟨6, [⟨"a", .numeric [some 0, some 0, some 0, some 0, some 1, some 5]⟩]⟩

/-- Three pairwise perfectly correlated columns: every pair is reported,
so `B` is the first element of the pair `(B, C)` yet also the second
element of `(A, B)` and lands in the removal set. -/
def exCorr : Table :=
  ⟨3, [⟨"A", .numeric [some 1, some 2, some 3]⟩,
       ⟨"B", .numeric [some 2, some 4, some 6]⟩,
       ⟨"C", .numeric [some 2, some 3, some 4]⟩]⟩

/-- A small frame with one null in a numeric column (mean 2, median 2). -/
def exImpute : Table := ⟨3, [⟨"x", .numeric [some 1, none, some 3]⟩]⟩

/-- A frame with a non-numeric column. -/
def exCat : Table := ⟨2, [⟨"s", .cat [some "u", none]⟩]⟩

/-!
# Theorems

Claims are settled below; helper lemmas precede the claim theorems.
-/

/-! ## C3: `drop_nulls_over_threshold` uses a strict comparison -/

/-- C3: after `drop_nulls_over_threshold` with threshold `T`, no
remaining column has null percentage strictly above `T`; a column whose
null percentage is exactly `T` is retained; and on a 10-row frame with a
60%-null and a 50%-null column and `T = 50`, only the 50% column
survives. -/
theorem dropNulls_strict_threshold :
    ∀ (t : Table) (threshold : ℚ),
      (∀ c ∈ (drop_nulls_over_threshold t threshold).cols,
        ∀ p, nullPct c t.nrows = some p → p ≤ threshold)
      ∧ (∀ c ∈ t.cols, nullPct c t.nrows = some threshold →
          c ∈ (drop_nulls_over_threshold t threshold).cols)
      ∧ (drop_nulls_over_threshold exThreshold 50).cols.map Col.name = ["B"] := by
  intro t threshold
  refine ⟨?_, ?_, by decide⟩
  · intro c hc p hp
    have hkeep := (List.mem_filter.mp hc).2
    simp only [nullPctExceeds, hp, Bool.not_eq_true'] at hkeep
    exact le_of_not_lt (by simpa using hkeep)
  · intro c hc hp
    refine List.mem_filter.mpr ⟨hc, ?_⟩
    simp [nullPctExceeds, hp]

/-- Witness for C3 at a concrete frame: the exactly-50%-null column `B`
is retained. -/
theorem dropNulls_strict_threshold_witness :
    (⟨"B", .numeric [none, none, none, none, none,
                     some 1, some 2, some 3, some 4, some 5]⟩ : Col)
      ∈ (drop_nulls_over_threshold exThreshold 50).cols :=
  (dropNulls_strict_threshold exThreshold 50).2.1
    ⟨"B", .numeric [none, none, none, none, none,
                    some 1, some 2, some 3, some 4, some 5]⟩
    (by decide) (by decide)

/-! ## C9: `count_nulls` on a zero-row table -/

/-- C9 counterexample: on a zero-row table the reported null percentage
is `NaN` (modelled `none`), not the claimed `0`. -/
theorem count_nulls_empty_not_zero :
    count_nulls exEmpty = [("a", 0, (none : Option ℚ))]
    ∧ (none : Option ℚ) ≠ some 0 := by
  exact ⟨by decide, by decide⟩

/-- C9 (amended): `count_nulls` reports, per column, the column's null
count and its null percentage `count / nrows * 100`; on a zero-row table
the percentage is the non-finite `0 / 0` (`NaN`, modelled `none`) rather
than an exception. -/
theorem count_nulls_reports :
    ∀ (t : Table), ∀ c ∈ t.cols,
      (c.name, c.data.nullCount, nullPct c t.nrows) ∈ count_nulls t
      ∧ (t.nrows = 0 → nullPct c t.nrows = none)
      ∧ (t.nrows ≠ 0 →
          nullPct c t.nrows = some ((c.data.nullCount : ℚ) / (t.nrows : ℚ) * 100)) := by
  intro t c hc
  refine ⟨List.mem_map_of_mem _ hc, ?_, ?_⟩
  · intro h0
    simp [nullPct, pandasDiv, h0]
  · intro hne
    have : ((t.nrows : ℚ)) ≠ 0 := by exact_mod_cast hne
    simp [nullPct, pandasDiv, this]

/-- Witness for C9's amended theorem on a 10-row frame: column `A` has
6 nulls and percentage 60. -/
theorem count_nulls_reports_witness :
    nullPct ⟨"A", .numeric [none, none, none, none, none, none,
                            some 1, some 2, some 3, some 4]⟩ exThreshold.nrows
      = some 60 := by
  have h := (count_nulls_reports exThreshold
    ⟨"A", .numeric [none, none, none, none, none, none,
                    some 1, some 2, some 3, some 4]⟩ (by decide)).2.2 (by decide)
  rw [h]
  decide

/-! ## C2, C8, C1: `transform_column` and `find_best_transformation` -/

/-- C2 (code evaluation): for a numeric column present in the table,
`transform_column` with an arbitrary `method` string — valid or not —
returns the column unchanged and raises nothing: the unconditional
`return self.df[col]` makes the `raise ValueError` unreachable, contrary
to the claim that an invalid method name is a caller-facing error. -/
theorem transform_column_never_raises :
    ∀ (t : Table) (col method : String) (c : Col),
      findCol t.cols col = some c → c.data.isNumeric = true →
      transform_column t col method = some ⟨false, c.data⟩ := by
  intro t col method c h hnum
  simp [transform_column, h, hnum]

/-- Witness for C2 at a concrete input: the invalid method name
`"cubert"` on numeric column `amt` yields the unchanged column, not an
error. -/
theorem transform_column_never_raises_witness :
    transform_column exAmt "amt" "cubert"
      = some ⟨false, .numeric [some 1, some 2, some 3, some 4, some 100]⟩ :=
  transform_column_never_raises exAmt "amt" "cubert"
    ⟨"amt", .numeric [some 1, some 2, some 3, some 4, some 100]⟩ (by decide) (by decide)

/-- C8: on a non-numeric column, `transform_column` with any of the three
valid method names logs the failure message, returns the column's values
unchanged, and does not raise. -/
theorem transform_column_non_numeric_noop :
    ∀ (t : Table) (col method : String) (c : Col),
      findCol t.cols col = some c → c.data.isNumeric = false →
      (method = "log" ∨ method = "sqrt" ∨ method = "boxcox") →
      transform_column t col method = some ⟨true, c.data⟩ := by
  intro t col method c h hnum _
  simp [transform_column, h, hnum]

/-- Witness for C8: the `log` transform on the non-numeric column `s`
logs a failure and returns the column unchanged. -/
theorem transform_column_non_numeric_noop_witness :
    transform_column exCat "s" "log" = some ⟨true, .cat [some "u", none]⟩ :=
  transform_column_non_numeric_noop exCat "s" "log"
    ⟨"s", .cat [some "u", none]⟩ (by decide) (by decide) (Or.inl rfl)

/-- C1 (code evaluation): whenever the column's skewness is a finite
value, `find_best_transformation` returns the method name `'log'`
together with the *original, untransformed* column data: every call to
`transform_column` returns the column unchanged, so all three
"candidates" coincide with the original column and the stored column is
never actually transformed — contrary to the claim that the three
transforms are evaluated and the least-skew transformed column stored. -/
theorem find_best_transformation_keeps_column :
    ∀ (skewfn : ColData → Option ℚ) (t : Table) (col : String) (c : Col) (s : ℚ),
      findCol t.cols col = some c → skewfn c.data = some s →
      find_best_transformation skewfn t col = some (some "log", c.data) := by
  intro skewfn t col c s h hs
  simp [find_best_transformation, transform_column, h, hs, absSkewLt]

/-- Witness for C1's code evaluation at a concrete input: with any
skewness statistic valuing the column at 2, the "best transformation" of
`amt` is reported as `log` with the column returned unchanged. -/
theorem find_best_transformation_keeps_column_witness :
    find_best_transformation (fun _ => some 2) exAmt "amt"
      = some (some "log", .numeric [some 1, some 2, some 3, some 4, some 100]) :=
  find_best_transformation_keeps_column (fun _ => some 2) exAmt "amt"
    ⟨"amt", .numeric [some 1, some 2, some 3, some 4, some 100]⟩ 2 (by decide) rfl

/-! ## C4, C7: `impute_missing_values` -/

lemma shouldUseMean_iff (m md : ℚ) :
    shouldUseMean m md = true ↔ (m ≠ 0 ∧ |m - md| / m < 1/10) := by
  simp [shouldUseMean]

lemma fillna_getD (v : List (Option α)) (w : Option α) :
    ∀ (i : Nat) (x : α), v.getD i none = some x → (fillna v w).getD i none = some x := by
  induction v with
  | nil => intro i x hx; simp at hx
  | cons a v ih =>
    intro i x hx
    cases i with
    | zero =>
      simp only [List.getD_cons_zero] at hx
      subst hx
      simp [fillna]
    | succ j =>
      simp only [List.getD_cons_succ] at hx
      simpa [fillna] using ih j x hx

lemma hasNull_fillna_some (v : List (Option α)) (w : α) :
    hasNull (fillna v (some w)) = false := by
  induction v with
  | nil => rfl
  | cons a v ih =>
    cases a <;> simpa [fillna, hasNull] using ih

lemma fillna_none (v : List (Option α)) : fillna v none = v := by
  induction v with
  | nil => rfl
  | cons a v ih => cases a <;> simp [fillna] <;> simpa [fillna] using ih

/-- C4: for a numeric column with at least one null and defined mean `m`
and median `md`, imputation fills the nulls with `m` when `m ≠ 0` and
`|m - md| / m < 0.1`, and with `md` otherwise — in particular the
degenerate `m = 0` falls to the median, not a division error — while
every non-null cell is left unchanged. -/
theorem impute_numeric_fill_rule :
    ∀ (nm : String) (v : List (Option ℚ)) (m md : ℚ),
      hasNull v = true → seriesMean v = some m → seriesMedian v = some md →
      imputeCol ⟨nm, .numeric v⟩
        = some ⟨nm, .numeric (fillna v (some (if m ≠ 0 ∧ |m - md| / m < 1/10 then m else md)))⟩
      ∧ (m = 0 → imputeCol ⟨nm, .numeric v⟩ = some ⟨nm, .numeric (fillna v (some md))⟩)
      ∧ (∀ (w : Option ℚ) (i : Nat) (x : ℚ),
          v.getD i none = some x → (fillna v w).getD i none = some x) := by
  intro nm v m md hn hm hmd
  have hfv : numericFillValue v = some (if m ≠ 0 ∧ |m - md| / m < 1/10 then m else md) := by
    simp only [numericFillValue, hm, hmd]
    by_cases hc : (m ≠ 0 ∧ |m - md| / m < 1/10)
    · rw [if_pos hc, if_pos (shouldUseMean_iff m md |>.mpr hc)]
    · rw [if_neg hc, if_neg (fun h => hc ((shouldUseMean_iff m md).mp h))]
  have h1 : imputeCol ⟨nm, .numeric v⟩
      = some ⟨nm, .numeric (fillna v (numericFillValue v))⟩ := by
    simp [imputeCol, hn]
  refine ⟨by rw [h1, hfv], ?_, fun w i x hx => fillna_getD v w i x hx⟩
  intro hm0
  rw [h1, hfv]
  have : ¬ (m ≠ 0 ∧ |m - md| / m < 1/10) := fun h => h.1 hm0
  rw [if_neg this]

/-- Witness for C4 on the column `[1, null, 3]` (mean 2, median 2): the
null is filled with the mean. -/
theorem impute_numeric_fill_rule_witness :
    imputeCol ⟨"x", .numeric [some 1, none, some 3]⟩
      = some ⟨"x", .numeric [some 1, some 2, some 3]⟩ := by
  have h := (impute_numeric_fill_rule "x" [some 1, none, some 3] 2 2
    (by decide) (by decide) (by decide)).1
  rw [h]
  decide

lemma imputeCol_idem (c c' : Col) (h : imputeCol c = some c') :
    imputeCol c' = some c' := by
  obtain ⟨nm, data⟩ := c
  cases data with
  | numeric v =>
    by_cases hn : hasNull v
    · simp only [imputeCol, hn, if_true, Option.some_inj] at h
      cases hfv : numericFillValue v with
      | some val =>
        rw [hfv] at h
        subst h
        simp [imputeCol, hasNull_fillna_some]
      | none =>
        rw [hfv, fillna_none] at h
        subst h
        simp [imputeCol, hn, hfv, fillna_none]
    · simp only [imputeCol, hn] at h
      rw [if_neg Bool.false_ne_true] at h
      rw [Option.some_inj] at h
      subst h
      simp [imputeCol, hn]
  | cat v =>
    by_cases hn : hasNull v
    · cases hmo : seriesMode v with
      | some w =>
        simp only [imputeCol, hn, if_true, hmo, Option.some_inj] at h
        subst h
        simp [imputeCol, hasNull_fillna_some]
      | none =>
        simp [imputeCol, hn, hmo] at h
    · simp only [imputeCol, hn] at h
      rw [if_neg Bool.false_ne_true] at h
      rw [Option.some_inj] at h
      subst h
      simp [imputeCol, hn]

lemma mapOpt_imputeCol_idem :
    ∀ (l l' : List Col), mapOpt imputeCol l = some l' →
      mapOpt imputeCol l' = some l' := by
  intro l
  induction l with
  | nil =>
    intro l' h
    simp only [mapOpt, Option.some_inj] at h
    subst h
    rfl
  | cons a l ih =>
    intro l' h
    simp only [mapOpt] at h
    cases ha : imputeCol a with
    | none => rw [ha] at h; simp at h
    | some b =>
      rw [ha] at h
      cases hl : mapOpt imputeCol l with
      | none => rw [hl] at h; simp at h
      | some bs =>
        rw [hl] at h
        simp only [Option.some_inj] at h
        subst h
        simp only [mapOpt, imputeCol_idem a b ha, ih bs hl]

/-- C7: imputation is idempotent — whenever a first run succeeds,
running it again returns the same dataframe with every column's values
unchanged. -/
theorem impute_missing_values_idempotent :
    ∀ (t t' : Table), impute_missing_values t = some t' →
      impute_missing_values t' = some t' := by
  intro t t' h
  unfold impute_missing_values at h ⊢
  cases hm : mapOpt imputeCol t.cols with
  | none => rw [hm] at h; simp at h
  | some cs =>
    rw [hm] at h
    simp only [Option.map_some', Option.some_inj] at h
    subst h
    simp [mapOpt_imputeCol_idem t.cols cs hm]

/-- Witness for C7: re-imputing the already-imputed `[1, null, 3]` frame
changes nothing. -/
theorem impute_missing_values_idempotent_witness :
    impute_missing_values ⟨3, [⟨"x", .numeric [some 1, some 2, some 3]⟩]⟩
      = some ⟨3, [⟨"x", .numeric [some 1, some 2, some 3]⟩]⟩ :=
  impute_missing_values_idempotent exImpute
    ⟨3, [⟨"x", .numeric [some 1, some 2, some 3]⟩]⟩ (by decide)

/-! ## C5: `remove_outliers` -/

lemma mem_maskFilter_map (xs : List α) (f : α → Bool) :
    ∀ x ∈ maskFilter xs (xs.map f), f x = true := by
  induction xs with
  | nil => intro x hx; simp [maskFilter] at hx
  | cons a xs ih =>
    intro x hx
    simp only [List.map_cons, maskFilter, List.zip_cons_cons, List.filterMap_cons] at hx
    by_cases hfa : f a = true
    · rw [hfa] at hx
      simp only [if_true, List.mem_cons] at hx
      rcases hx with rfl | hx
      · exact hfa
      · exact ih x hx
    · rw [Bool.not_eq_true] at hfa
      rw [hfa] at hx
      simp only [Bool.false_eq_true, if_false, List.mem_cons] at hx
      exact ih x hx

lemma maskFilter_length_le (xs : List α) (mask : List Bool) :
    (maskFilter xs mask).length ≤ xs.length := by
  calc (maskFilter xs mask).length ≤ (xs.zip mask).length :=
        List.length_filterMap_le _ _
    _ ≤ xs.length := by rw [List.length_zip]; exact Nat.min_le_left _ _

lemma count_true_le (mask : List Bool) : mask.count true ≤ mask.length :=
  List.count_le_length _ _

/-- C5 counterexample: interquartile-range outlier removal is not a
fixed point.  On the column `[0, 0, 0, 0, 1, 5]` the first pass removes
only the `5`; rerunning it on the already-filtered frame recomputes the
quartiles and also removes the `1`. -/
theorem remove_outliers_not_fixed_point :
    remove_outliers (remove_outliers exShrink "a") "a" ≠ remove_outliers exShrink "a"
    ∧ (remove_outliers exShrink "a").nrows = 5
    ∧ (remove_outliers (remove_outliers exShrink "a") "a").nrows = 4 := by
  refine ⟨by decide, by decide, by decide⟩

/-- C5 (amended): `remove_outliers` keeps exactly the rows whose value
lies in `[Q1 - 1.5*IQR, Q3 + 1.5*IQR]` of the pre-filter column — the
row count never increases and every retained cell of the column obeys
the bounds — and on `amt = [1, 2, 3, 4, 100]` the bounds are `[-1, 7]`
and exactly the row holding `100` is removed; rerunning it on the
already-filtered frame may however remove further rows, since the
quartiles are recomputed on the filtered data. -/
theorem remove_outliers_iqr_bounds :
    (∀ (t : Table) (col : String), t.WF → (remove_outliers t col).nrows ≤ t.nrows)
    ∧ (∀ (t : Table) (col nm : String) (v : List (Option ℚ)) (lb ub : ℚ),
        findCol t.cols col = some ⟨nm, .numeric v⟩ →
        lowerBound v = some lb → upperBound v = some ub →
        ∃ v', findCol (remove_outliers t col).cols col = some ⟨nm, .numeric v'⟩
          ∧ ∀ x ∈ v', ∃ q, x = some q ∧ lb ≤ q ∧ q ≤ ub)
    ∧ (lowerBound [some 1, some 2, some 3, some 4, some 100] = some (-1)
        ∧ upperBound [some 1, some 2, some 3, some 4, some 100] = some 7
        ∧ remove_outliers exAmt "amt"
            = ⟨4, [⟨"amt", .numeric [some 1, some 2, some 3, some 4]⟩]⟩) := by
  refine ⟨?_, ?_, by decide, by decide, by decide⟩
  · intro t col hwf
    cases hf : findCol t.cols col with
    | none => simp [remove_outliers, hf]
    | some c =>
      obtain ⟨nm, data⟩ := c
      cases data with
      | cat v => simp [remove_outliers, hf]
      | numeric v =>
        simp only [remove_outliers, hf]
        have hmem : (⟨nm, .numeric v⟩ : Col) ∈ t.cols :=
          List.mem_of_find?_eq_some hf
        have hlen : v.length = t.nrows := hwf _ hmem
        calc (v.map (fun x => inBounds (lowerBound v) (upperBound v) x)).count true
            ≤ (v.map (fun x => inBounds (lowerBound v) (upperBound v) x)).length :=
              count_true_le _
          _ = v.length := List.length_map _ _
          _ = t.nrows := hlen
  · intro t col nm v lb ub hf hlb hub
    have hf' : List.find? (fun c : Col => c.name == col) t.cols
        = some ⟨nm, .numeric v⟩ := hf
    refine ⟨maskFilter v (v.map (fun x => inBounds (lowerBound v) (upperBound v) x)), ?_, ?_⟩
    · simp only [remove_outliers, findCol, hf', List.find?_map]
      have hpred : ((fun c : Col => c.name == col)
          ∘ (fun c : Col => (⟨c.name, c.data.applyMask
              (v.map (fun x => inBounds (lowerBound v) (upperBound v) x))⟩ : Col)))
          = (fun c : Col => c.name == col) := rfl
      rw [hpred, hf']
      simp [ColData.applyMask]
    · intro x hx
      have hb := mem_maskFilter_map v (fun x => inBounds (lowerBound v) (upperBound v) x) x hx
      rw [hlb, hub] at hb
      cases x with
      | none => simp [inBounds] at hb
      | some q =>
        have hq : lb ≤ q ∧ q ≤ ub := by simpa [inBounds] using hb
        exact ⟨q, rfl, hq.1, hq.2⟩

/-- Witness for C5's amended theorem on the `amt` scenario frame: the
row count does not grow and the retained cells all lie in `[-1, 7]`. -/
theorem remove_outliers_iqr_bounds_witness :
    (remove_outliers exAmt "amt").nrows ≤ exAmt.nrows
    ∧ ∃ v', findCol (remove_outliers exAmt "amt").cols "amt" = some ⟨"amt", .numeric v'⟩
        ∧ ∀ x ∈ v', ∃ q, x = some q ∧ (-1 : ℚ) ≤ q ∧ q ≤ 7 := by
  constructor
  · exact remove_outliers_iqr_bounds.1 exAmt "amt" (by intro c hc; fin_cases hc; rfl)
  · exact remove_outliers_iqr_bounds.2.1 exAmt "amt" "amt"
      [some 1, some 2, some 3, some 4, some 100] (-1) 7 (by decide) (by decide) (by decide)

/-! ## C6, C10: correlation-based column removal -/

lemma corrPairs_sublist (thr : ℚ) {l₁ l₂ : List (String × List (Option ℚ))}
    (h : l₁.Sublist l₂) : ∀ p ∈ corrPairs thr l₁, p ∈ corrPairs thr l₂ := by
  induction h with
  | slnil => intro p hp; exact hp
  | cons a h ih =>
    intro p hp
    exact List.mem_append_right _ (ih p hp)
  | cons₂ a h ih =>
    intro p hp
    simp only [corrPairs, List.mem_append] at hp ⊢
    rcases hp with hp | hp
    · left
      obtain ⟨d, hd, hde⟩ := List.mem_filterMap.mp hp
      exact List.mem_filterMap.mpr ⟨d, h.subset hd, hde⟩
    · right
      exact ih p hp

lemma corrPairs_snd_mem (thr : ℚ) :
    ∀ (l : List (String × List (Option ℚ))) (p : String × String),
      p ∈ corrPairs thr l → ∃ d ∈ l, d.1 = p.2 := by
  intro l
  induction l with
  | nil => intro p hp; simp [corrPairs] at hp
  | cons c rest ih =>
    intro p hp
    simp only [corrPairs, List.mem_append] at hp
    rcases hp with hp | hp
    · obtain ⟨d, hd, hde⟩ := List.mem_filterMap.mp hp
      by_cases hce : corrExceeds c.2 d.2 thr = true
      · rw [if_pos hce, Option.some_inj] at hde
        exact ⟨d, List.mem_cons_of_mem c hd, by rw [← hde]⟩
      · rw [if_neg hce] at hde
        exact absurd hde (by simp)
    · obtain ⟨d, hd, hde⟩ := ih p hp
      exact ⟨d, List.mem_cons_of_mem c hd, hde⟩

lemma corrPairs_snd_in_tail (thr : ℚ) :
    ∀ (rest : List (String × List (Option ℚ))) (c : String × List (Option ℚ))
      (y : String), y ∈ (corrPairs thr (c :: rest)).map Prod.snd →
      y ∈ rest.map Prod.fst := by
  intro rest
  induction rest with
  | nil =>
    intro c y hy
    simp [corrPairs] at hy
  | cons d rest' ih =>
    intro c y hy
    simp only [corrPairs, List.map_append, List.mem_append] at hy
    rcases hy with hy | hy
    · obtain ⟨p, hp, hpy⟩ := List.mem_map.mp hy
      obtain ⟨e, he, hee⟩ := List.mem_filterMap.mp hp
      by_cases hce : corrExceeds c.2 e.2 thr = true
      · rw [if_pos hce, Option.some_inj] at hee
        subst hee
        exact List.mem_map.mpr ⟨e, he, hpy⟩
      · rw [if_neg hce] at hee
        exact absurd hee (by simp)
    · have hy' : y ∈ (corrPairs thr (d :: rest')).map Prod.snd := by
        simp only [corrPairs, List.map_append, List.mem_append]
        exact hy
      exact List.mem_cons_of_mem _ (ih d y hy')

lemma numericCols_names_sublist :
    ∀ (cs : List Col),
      ((cs.filterMap (fun c =>
        match c.data with
        | .numeric v => some (c.name, v)
        | .cat _ => none)).map Prod.fst).Sublist (cs.map Col.name) := by
  intro cs
  induction cs with
  | nil => exact List.Sublist.refl _
  | cons c cs ih =>
    cases hd : c.data with
    | numeric v =>
      simpa [List.filterMap_cons, hd] using ih.cons₂ c.name
    | cat v =>
      simpa [List.filterMap_cons, hd] using ih.cons c.name

lemma numericCols_filter_sublist (t : Table) (p : Col → Bool) :
    (numericCols ⟨t.nrows, t.cols.filter p⟩).Sublist (numericCols t) :=
  (List.filter_sublist t.cols).filterMap _

lemma numericCols_mem_name (t : Table) (nm : String) (v : List (Option ℚ))
    (h : (nm, v) ∈ numericCols t) : ∃ c ∈ t.cols, c.name = nm := by
  obtain ⟨c, hc, hce⟩ := List.mem_filterMap.mp h
  refine ⟨c, hc, ?_⟩
  cases hd : c.data with
  | numeric w => rw [hd, Option.some_inj] at hce; exact congrArg Prod.fst hce
  | cat w => rw [hd] at hce; exact absurd hce (by simp)

/-- C6 counterexample: with three pairwise perfectly correlated columns
`A`, `B`, `C`, the pair `(B, C)` is reported yet its first element `B`
is removed (it is also the second element of `(A, B)`), so "the first
element of each pair is always kept" fails. -/
theorem corr_pair_first_element_removed :
    ("B", "C") ∈ identify_highly_correlated exCorr (9/10)
    ∧ "B" ∈ (remove_highly_correlated_columns exCorr (9/10)).2 := by
  exact ⟨by decide, by decide⟩

/-- C6 (amended): `remove_highly_correlated_columns` removes exactly the
columns occurring as second element of some reported pair (a pair's
first element survives unless it is itself the second element of another
pair); it returns the reduced dataframe with that removal set, afterwards
no remaining pair of numeric columns exceeds the threshold on the
original (unchanged) values, and the removal set is disjoint from the
retained columns. -/
theorem remove_highly_correlated_reduces :
    ∀ (t : Table) (threshold : ℚ),
      ((remove_highly_correlated_columns t threshold).2
          = ((identify_highly_correlated t threshold).map Prod.snd).toFinset)
      ∧ identify_highly_correlated
          (remove_highly_correlated_columns t threshold).1 threshold = []
      ∧ (∀ c ∈ (remove_highly_correlated_columns t threshold).1.cols,
          c.name ∉ (remove_highly_correlated_columns t threshold).2) := by
  intro t threshold
  refine ⟨rfl, ?_, ?_⟩
  · by_contra hne
    obtain ⟨p, hp⟩ := List.exists_mem_of_ne_nil _ hne
    have hp' : p ∈ corrPairs threshold
        (numericCols (remove_highly_correlated_columns t threshold).1) := hp
    obtain ⟨d, hd, hdy⟩ := corrPairs_snd_mem threshold _ p hp'
    -- the pair also appears among the pairs of the full frame,
    -- so its second element is in the removal set
    have hsub : (numericCols (remove_highly_correlated_columns t threshold).1).Sublist
        (numericCols t) := numericCols_filter_sublist t _
    have hfull : p ∈ corrPairs threshold (numericCols t) :=
      corrPairs_sublist threshold hsub p hp'
    have hinset : p.2 ∈ ((identify_highly_correlated t threshold).map Prod.snd).toFinset := by
      exact List.mem_toFinset.mpr (List.mem_map.mpr ⟨p, hfull, rfl⟩)
    -- but the second element belongs to a retained column, which was
    -- filtered to exclude the removal set
    obtain ⟨c, hc, hcn⟩ := numericCols_mem_name _ d.1 d.2 (by
      simpa using hd)
    have hkeep := (List.mem_filter.mp hc).2
    rw [hcn, hdy] at hkeep
    simp only [decide_eq_true_eq] at hkeep
    exact hkeep hinset
  · intro c hc
    have hkeep := (List.mem_filter.mp hc).2
    simp only [decide_eq_true_eq] at hkeep
    exact hkeep

/-- Witness for C6's amended theorem at the three-column frame: the
retained column `A` is not in the removal set. -/
theorem remove_highly_correlated_reduces_witness :
    (⟨"A", .numeric [some 1, some 2, some 3]⟩ : Col).name
      ∉ (remove_highly_correlated_columns exCorr (9/10)).2 :=
  (remove_highly_correlated_reduces exCorr (9/10)).2.2
    ⟨"A", .numeric [some 1, some 2, some 3]⟩ (by decide)

/-- C10: when column names are distinct, the first numeric column is
never removed by `remove_highly_correlated_columns`: reported pairs are
upper-triangle (`i < j`) and only second elements are collected, and the
first numeric column is never a pair's second element. -/
theorem first_numeric_column_retained :
    ∀ (t : Table) (threshold : ℚ) (c₀ : String × List (Option ℚ)),
      (t.cols.map Col.name).Nodup →
      (numericCols t).head? = some c₀ →
      c₀.1 ∉ (remove_highly_correlated_columns t threshold).2 := by
  intro t threshold c₀ hnd hhd hmem
  obtain ⟨rest, hrest⟩ : ∃ rest, numericCols t = c₀ :: rest := by
    cases hnc : numericCols t with
    | nil => rw [hnc] at hhd; simp at hhd
    | cons a l =>
      rw [hnc] at hhd
      simp only [List.head?_cons, Option.some_inj] at hhd
      exact ⟨l, by rw [hhd]⟩
  have hy : c₀.1 ∈ ((identify_highly_correlated t threshold).map Prod.snd) := by
    simpa [remove_highly_correlated_columns] using hmem
  rw [identify_highly_correlated, hrest] at hy
  have htail : c₀.1 ∈ rest.map Prod.fst :=
    corrPairs_snd_in_tail threshold rest c₀ c₀.1 hy
  have hnames : ((numericCols t).map Prod.fst).Sublist (t.cols.map Col.name) :=
    numericCols_names_sublist t.cols
  rw [hrest] at hnames
  have hnd' : (c₀.1 :: rest.map Prod.fst).Nodup := by
    simpa using hnames.nodup hnd
  exact (List.nodup_cons.mp hnd').1 htail

/-- Witness for C10 at the three-column frame: the first numeric column
`A` is retained. -/
theorem first_numeric_column_retained_witness :
    ("A" : String) ∉ (remove_highly_correlated_columns exCorr (9/10)).2 :=
  first_numeric_column_retained exCorr (9/10)
    ("A", [some 1, some 2, some 3]) (by decide) (by decide)

end LoansEDA
